import Mathlib

/-!
Verification of the particle-morphing program (40-particles-morphing-shader).

The embedding models:
* the position-normalization loop of the GLTF onLoad callback in
  src/script.js (lines 107-141),
* the morph controller (particles.morph, lines 187-201) together with a
  model of the gsap tween it creates,
* the auto-advance timer swapModels (lines 245-252),
* the per-frame render callback tick (lines 256-273),
* the fragment shader alpha law (shaders/particles/fragment.glsl).

Scalars stored in Float32Arrays are modelled as rationals; the claims under
study only copy scalars between slots (never compute with them), so the
choice of scalar type is immaterial to them.  A JavaScript out-of-bounds
read of a Float32Array yields undefined, which a subsequent Float32Array
store coerces to NaN; the embedding threads an explicit scalar nan used as
the default of every array read.  Math.random() is modelled by an oracle:
rand i stands for the value Math.floor(position.count * Math.random())
computed while filling padded slot i (the multiplication by 3 that the code
performs afterwards is kept explicit in the embedding).
-/

namespace ParticlesMorphing

/-- THREE.BufferAttribute count: array.length / itemSize with itemSize 3.
In the source, position.count for a position attribute. -/
def variantCount (v : List ℚ) : Nat := v.length / 3

/-- Lines 115-118: particles.maxCount starts at 0 and each position whose
count exceeds the running maximum replaces it, i.e. a left fold of max. -/
def maxCountOf (vs : List (List ℚ)) : Nat :=
  List.foldl (fun m v => max m (variantCount v)) 0 vs

/-- Body of the padding loop (lines 125-139) for one slot i: i3 = i * 3;
if i3 < originalArray.length the three scalars are copied verbatim,
otherwise randomIndex = rand i * 3 selects a point of the same original
array (an out-of-bounds read stores nan). -/
def padSlot (orig : List ℚ) (nan : ℚ) (rand : Nat → Nat) (i : Nat) : List ℚ :=
  let i3 := i * 3
  if i3 < orig.length then
    [orig.getD i3 nan, orig.getD (i3 + 1) nan, orig.getD (i3 + 2) nan]
  else
    let ri := rand i * 3
    [orig.getD ri nan, orig.getD (ri + 1) nan, orig.getD (ri + 2) nan]

/-- The padding loop (lines 125-139): newArray is filled slot by slot for
i = 0 .. maxCount - 1. -/
def buildPadded (orig : List ℚ) (nan : ℚ) (rand : Nat → Nat) : Nat → List ℚ
  | 0 => []
  | n + 1 => buildPadded orig nan rand n ++ padSlot orig nan rand n

/-- One iteration of the normalization loop (lines 121-140): the variant is
skipped (continue: nothing is pushed) when originalArray.length equals
maxCount, otherwise the padded copy of length 3 * maxCount is pushed. -/
def normalizeVariant (maxCount : Nat) (nan : ℚ) (rand : Nat → Nat)
    (orig : List ℚ) : Option (List ℚ) :=
  if orig.length = maxCount then none
  else some (buildPadded orig nan rand maxCount)

/-- The normalization loop over the list of variants, pushing the surviving
arrays in input order; k numbers the variants so each one draws from its
own stretch of the random oracle. -/
def normalizeFrom (nan : ℚ) (rand : Nat → Nat → Nat) (mc : Nat) :
    Nat → List (List ℚ) → List (List ℚ)
  | _, [] => []
  | k, v :: rest =>
    match normalizeVariant mc nan (rand k) v with
    | none => normalizeFrom nan rand mc (k + 1) rest
    | some w => w :: normalizeFrom nan rand mc (k + 1) rest

/-- Lines 107-141 as a whole: compute maxCount, then run the loop that
builds particles.positions. -/
def normalizePositions (nan : ℚ) (rand : Nat → Nat → Nat)
    (vs : List (List ℚ)) : List (List ℚ) :=
  normalizeFrom nan rand (maxCountOf vs) 0 vs

/-- Follows the words of the spec, section 4.1 failure clause: the condition
under which the normalizer is required to fail with NoGeometryError, namely
zero variants or some variant with zero points.  (The source has no such
check; this definition exists only to state that requirement.) -/
def hasNoGeometry (vs : List (List ℚ)) : Prop :=
  vs = [] ∨ ∃ v ∈ vs, variantCount v = 0

instance (vs : List (List ℚ)) : Decidable (hasNoGeometry vs) := by
  unfold hasNoGeometry; infer_instance

/-- Point r of a variant, as the triple of scalars the code reads at float
indices r * 3, r * 3 + 1, r * 3 + 2. -/
def pointOf (nan : ℚ) (v : List ℚ) (r : Nat) : List ℚ :=
  [v.getD (r * 3) nan, v.getD (r * 3 + 1) nan, v.getD (r * 3 + 2) nan]

/-- Fragment shader, fragment.glsl lines 5-8: alpha = 0.05 / d - 0.1 where
d = length(gl_PointCoord - 0.5).  The two constants are exact powers of two
times 0.05, so these identities are exact in binary floating point as well
as in the rational model. -/
def fragmentAlpha (distanceToCenter : ℚ) : ℚ :=
  0.05 / distanceToCenter - 0.1

/-!
Morph controller.  particles.morph (script.js lines 187-201) reassigns the
geometry attributes from particles.positions, starts a gsap tween
gsap.fromTo(uProgress, value 0, value 1, duration 3, ease linear) and then
stores the requested index in particles.index.  gsap.fromTo does not kill a
tween already running on the same target: the new tween is appended to the
set of live tweens.  Live tweens are ticked in creation order each frame,
so the value observed on uProgress at time t is the value of the most
recently created tween that has already started; a finished tween holds its
end value 1, which the clamped tweenValue below reproduces.
-/

/-- A gsap tween of uProgress created by particles.morph: from value 0 to
value 1 with the given start time and duration (the source always passes
duration 3, ease linear). -/
structure Tween where
  startTime : ℚ
  duration : ℚ
deriving DecidableEq

/-- Value of a linear-ease 0-to-1 tween at time t: 0 before its start, 1
from its end on, and linear interpolation in between. -/
def tweenValue (tw : Tween) (t : ℚ) : ℚ :=
  if t ≤ tw.startTime then 0
  else if tw.startTime + tw.duration ≤ t then 1
  else (t - tw.startTime) / tw.duration

/-- A tween is in flight at time t when it has started and not yet reached
its end. -/
def tweenAlive (tw : Tween) (t : ℚ) : Bool :=
  decide (tw.startTime ≤ t) && decide (t < tw.startTime + tw.duration)

/-- The particles object built in the onLoad callback, restricted to the
morph state: particles.positions, particles.index, the two geometry
attributes the morph method reassigns, and the live gsap tweens of
uProgress. -/
structure MorphSys where
  positions : List (List ℚ)
  index : Nat
  posAttr : Option (List ℚ)
  targetAttr : Option (List ℚ)
  tweens : List Tween
deriving DecidableEq

/-- particles.morph (lines 187-201): position attribute becomes
positions[particles.index] (the index saved before this call),
aPositionTarget becomes positions[index] (undefined when out of range,
modelled as none), a fresh duration-3 tween of uProgress is created without
killing the previous one, and finally particles.index = index. -/
def MorphSys.morph (s : MorphSys) (j : Nat) (now : ℚ) : MorphSys :=
  { s with
    posAttr := s.positions[s.index]?
    targetAttr := s.positions[j]?
    tweens := s.tweens ++ [⟨now, 3⟩]
    index := j }

/-- The tweens in flight at time t. -/
def activeTweens (s : MorphSys) (t : ℚ) : List Tween :=
  s.tweens.filter (fun tw => tweenAlive tw t)

/-- Observed value of the uProgress uniform at time t: the most recently
created tween that has started wins each tick; before any tween starts the
uniform keeps its initial value 0 (line 169, new THREE.Uniform(0)). -/
def uProgressAt (s : MorphSys) (t : ℚ) : ℚ :=
  match (s.tweens.filter (fun tw => decide (tw.startTime ≤ t))).getLast? with
  | none => 0
  | some tw => tweenValue tw t

/-- Target index chosen by the setInterval callback (lines 245-252):
if (particles.index >= particles.positions.length - 1) morph(0) else
morph(particles.index + 1).  Nat truncated subtraction agrees with the
JavaScript comparison also for an empty positions list, where length - 1 is
-1 and the comparison always holds. -/
def swapTarget (n : Nat) (index : Nat) : Nat :=
  if n - 1 ≤ index then 0 else index + 1

/-- One firing of the setInterval callback on a non-null particles. -/
def swapStep (s : MorphSys) (now : ℚ) : MorphSys :=
  s.morph (swapTarget s.positions.length s.index) now

/-- The auto-advance timer: setInterval with period 4000 ms (4 time units);
the k-th firing happens at time 4 * k and runs swapStep. -/
def autoAdvance (s : MorphSys) : Nat → MorphSys
  | 0 => s
  | k + 1 => swapStep (autoAdvance s k) ((k + 1) * 4)

/-- A JavaScript runtime fault. -/
inductive JsFault
  | nullDeref
deriving DecidableEq

/-- The setInterval callback as run against the top-level particles
variable: reading particles.index throws when particles is null (there is
no guard), otherwise the swap step runs. -/
def timerCallback (p : Option MorphSys) (now : ℚ) : Except JsFault MorphSys :=
  match p with
  | none => Except.error JsFault.nullDeref
  | some s => Except.ok (swapStep s now)

/-- The per-frame tick callback (lines 256-273) restricted to its particles
access: the rotation update is guarded by if (particles), so a null
particles is skipped and no fault occurs. -/
def renderTick (p : Option MorphSys) (elapsedTime : ℚ) :
    Except JsFault (Option (ℚ × ℚ × ℚ)) :=
  match p with
  | none => Except.ok none
  | some _ =>
    Except.ok (some (elapsedTime * 0.02, elapsedTime * 0.02,
      elapsedTime * 0.02))

/-- Line 96: let particles = null, the value the two callbacks above can
observe until the asynchronous GLTF onLoad callback assigns the particles
object; swapModels() on line 252 starts the interval timer synchronously at
script load, before that assignment can have happened. -/
def initialParticles : Option MorphSys := none

/- ------------------------------------------------------------------ -/
/- Basic lemmas about the padding loop.                               -/
/- ------------------------------------------------------------------ -/

theorem buildPadded_length (orig : List ℚ) (nan : ℚ) (rand : Nat → Nat) :
    ∀ n, (buildPadded orig nan rand n).length = n * 3 := by
  intro n
  induction n with
  | zero => rfl
  | succ m ih =>
    simp only [buildPadded, List.length_append, ih, padSlot]
    split <;> simp [Nat.succ_mul]

theorem buildPadded_getD (orig : List ℚ) (nan : ℚ) (rand : Nat → Nat) :
    ∀ n i, i < n * 3 →
      (buildPadded orig nan rand n).getD i nan =
        (padSlot orig nan rand (i / 3)).getD (i % 3) nan := by
  intro n
  induction n with
  | zero => intro i hi; omega
  | succ m ih =>
    intro i hi
    have hlen : (buildPadded orig nan rand m).length = m * 3 :=
      buildPadded_length orig nan rand m
    by_cases hcase : i < m * 3
    · rw [buildPadded, List.getD_append _ _ _ _ (by omega), ih i hcase]
    · have hq : i / 3 = m := by omega
      have hr : i - m * 3 = i % 3 := by omega
      rw [buildPadded, List.getD_append_right _ _ _ _ (by omega), hlen, hr, hq]

theorem buildPadded_copy_getD (orig : List ℚ) (nan : ℚ) (rand : Nat → Nat)
    (n i : Nat) (hi : i < n * 3) (hio : i < orig.length) :
    (buildPadded orig nan rand n).getD i nan = orig.getD i nan := by
  rw [buildPadded_getD orig nan rand n i hi]
  have h3 : i / 3 * 3 < orig.length := by omega
  have hidx : i / 3 * 3 + i % 3 = i := by omega
  have hm : i % 3 < 3 := by omega
  simp only [padSlot, if_pos h3]
  interval_cases h : i % 3 <;> simp_all

theorem buildPadded_pad_getD (orig : List ℚ) (nan : ℚ) (rand : Nat → Nat)
    (n i k : Nat) (hin : i < n) (hk : k < 3) (hge : orig.length ≤ i * 3) :
    (buildPadded orig nan rand n).getD (i * 3 + k) nan =
      orig.getD (rand i * 3 + k) nan := by
  have hidx : i * 3 + k < n * 3 := by omega
  rw [buildPadded_getD orig nan rand n _ hidx]
  have hq : (i * 3 + k) / 3 = i := by omega
  have hrm : (i * 3 + k) % 3 = k := by omega
  rw [hq, hrm]
  simp only [padSlot, if_neg (by omega : ¬ i * 3 < orig.length)]
  interval_cases k <;> simp

theorem buildPadded_copy (orig : List ℚ) (nan : ℚ) (rand : Nat → Nat)
    (n : Nat) (hle : n * 3 ≤ orig.length) :
    buildPadded orig nan rand n = orig.take (n * 3) := by
  apply List.ext_getElem
  · rw [buildPadded_length, List.length_take]; omega
  · intro i h1 h2
    have hi : i < n * 3 := by
      rwa [buildPadded_length] at h1
    have hio : i < orig.length := by omega
    have key := buildPadded_copy_getD orig nan rand n i hi hio
    rw [List.getD_eq_getElem?_getD, List.getD_eq_getElem?_getD,
      List.getElem?_eq_getElem h1, List.getElem?_eq_getElem hio] at key
    simpa [List.getElem_take] using key

theorem buildPadded_take_copy (orig : List ℚ) (nan : ℚ) (rand : Nat → Nat)
    (n : Nat) (hle : orig.length ≤ n * 3) :
    (buildPadded orig nan rand n).take orig.length = orig := by
  apply List.ext_getElem
  · rw [List.length_take, buildPadded_length]; omega
  · intro i h1 h2
    have hi : i < n * 3 := by omega
    have hw : i < (buildPadded orig nan rand n).length := by
      rw [buildPadded_length]; omega
    have key := buildPadded_copy_getD orig nan rand n i hi h2
    rw [List.getD_eq_getElem?_getD, List.getD_eq_getElem?_getD,
      List.getElem?_eq_getElem hw, List.getElem?_eq_getElem h2] at key
    simpa [List.getElem_take] using key

/- ------------------------------------------------------------------ -/
/- Basic lemmas about tweens and the morph method.                    -/
/- ------------------------------------------------------------------ -/

theorem tweenValue_start (t0 : ℚ) : tweenValue ⟨t0, 3⟩ t0 = 0 := by
  simp [tweenValue]

theorem tweenValue_end (t0 : ℚ) : tweenValue ⟨t0, 3⟩ (t0 + 3) = 1 := by
  rw [tweenValue, if_neg (by norm_num), if_pos (by norm_num)]

theorem tweenValue_linear (t0 t : ℚ) (h1 : t0 ≤ t) (h2 : t ≤ t0 + 3) :
    tweenValue ⟨t0, 3⟩ t = (t - t0) / 3 := by
  rw [tweenValue]
  split_ifs with ha hb
  · have : t = t0 := le_antisymm ha h1
    rw [this]; norm_num
  · have : t = t0 + 3 := le_antisymm h2 hb
    rw [this]; norm_num
  · rfl

theorem tweenValue_mono (t0 t1 t2 : ℚ) (h : t1 ≤ t2) :
    tweenValue ⟨t0, 3⟩ t1 ≤ tweenValue ⟨t0, 3⟩ t2 := by
  rw [tweenValue, tweenValue]
  dsimp only
  split_ifs <;> linarith

theorem uProgressAt_after_morph (s : MorphSys) (j : Nat) (now t : ℚ)
    (h : now ≤ t) :
    uProgressAt (s.morph j now) t = tweenValue ⟨now, 3⟩ t := by
  rw [uProgressAt, MorphSys.morph]
  simp [List.filter_append, h]

theorem morph_positions (s : MorphSys) (j : Nat) (now : ℚ) :
    (s.morph j now).positions = s.positions := rfl

theorem morph_index (s : MorphSys) (j : Nat) (now : ℚ) :
    (s.morph j now).index = j := rfl

theorem autoAdvance_positions (s : MorphSys) :
    ∀ k, (autoAdvance s k).positions = s.positions := by
  intro k
  induction k with
  | zero => rfl
  | succ m ih => rw [autoAdvance, swapStep, morph_positions, ih]

theorem swapTarget_eq_mod (n i : Nat) (h : i < n) :
    swapTarget n i = (i + 1) % n := by
  rw [swapTarget]
  split_ifs with hc
  · have hi : i + 1 = n := by omega
    rw [hi, Nat.mod_self]
  · rw [Nat.mod_eq_of_lt (by omega)]

theorem autoAdvance_index (s : MorphSys) (h : s.index < s.positions.length) :
    ∀ k, (autoAdvance s k).index = (s.index + k) % s.positions.length := by
  intro k
  induction k with
  | zero => exact (Nat.mod_eq_of_lt h).symm
  | succ m ih =>
    have hn : 0 < s.positions.length := by omega
    have hprev : (autoAdvance s m).index < s.positions.length := by
      rw [ih]; exact Nat.mod_lt _ hn
    rw [autoAdvance, swapStep, morph_index, autoAdvance_positions,
      swapTarget_eq_mod _ _ hprev, ih]
    have := Nat.ModEq.add_right 1 (Nat.mod_modEq (s.index + m)
      s.positions.length)
    calc ((s.index + m) % s.positions.length + 1) % s.positions.length
        = (s.index + m + 1) % s.positions.length := this
      _ = (s.index + (m + 1)) % s.positions.length := by
          rw [Nat.add_assoc]

/-- An idle particles object with four 1-point variants, used as the
concrete state of the morph-controller scenarios. -/
def demoParticles : MorphSys :=
  { positions := [[1, 1, 1], [2, 2, 2], [3, 3, 3], [4, 4, 4]],
    index := 0,
    posAttr := none,
    targetAttr := none,
    tweens := [] }

/- ------------------------------------------------------------------ -/
/- C5: out-of-range morphTo.                                          -/
/- ------------------------------------------------------------------ -/

/-- C5, counterexample: the claim says morphTo(7) on a 4-variant set fails
with InvalidVariantIndexError and leaves the morph state unchanged.  The
source method performs no bounds check: on a 4-variant particles object it
saves index 7 and mutates the state, so the state is not unchanged. -/
theorem c5_counterexample :
    (demoParticles.morph 7 0).index = 7 ∧
    demoParticles.index = 0 ∧
    demoParticles.morph 7 0 ≠ demoParticles := by
  refine ⟨rfl, rfl, ?_⟩
  intro hcontra
  have : (7 : Nat) = 0 := congrArg MorphSys.index hcontra
  exact absurd this (by decide)

/-- C5, amended: calling morph with an index outside [0, variantCount)
raises no error and does not preserve the state: the saved index becomes j,
the target attribute becomes the missing positions entry (undefined), a
fresh duration-3 tween is appended, and the observed progress restarts at
0 at the call instant. -/
theorem c5_amended (s : MorphSys) (j : Nat) (now : ℚ)
    (hj : s.positions.length ≤ j) :
    (s.morph j now).index = j ∧
    (s.morph j now).targetAttr = none ∧
    (s.morph j now).tweens = s.tweens ++ [⟨now, 3⟩] ∧
    uProgressAt (s.morph j now) now = 0 := by
  refine ⟨rfl, ?_, rfl, ?_⟩
  · rw [MorphSys.morph]
    simp [List.getElem?_eq_none hj]
  · rw [uProgressAt_after_morph s j now now le_rfl, tweenValue_start]

/-- C5, witness for the amended theorem at a concrete 4-variant state,
index 7 and time 0. -/
theorem c5_amended_witness :
    (demoParticles.morph 7 0).index = 7 ∧
    (demoParticles.morph 7 0).targetAttr = none ∧
    (demoParticles.morph 7 0).tweens = demoParticles.tweens ++ [⟨0, 3⟩] ∧
    uProgressAt (demoParticles.morph 7 0) 0 = 0 :=
  c5_amended demoParticles 7 0 (by decide)

/- ------------------------------------------------------------------ -/
/- C6: preemption of an in-flight transition.                         -/
/- ------------------------------------------------------------------ -/

/-- C6, counterexample: the claim says that after a second morphTo issued
before the first transition completes, exactly one transition is active.
The source calls gsap.fromTo without killing the prior tween: after
morph(2) at time 0 and morph(2) at time 1, two tweens are in flight at
time 1 (the first lives until time 3). -/
theorem c6_counterexample :
    (activeTweens ((demoParticles.morph 2 0).morph 2 1) 1).length = 2 ∧
    ¬ (activeTweens ((demoParticles.morph 2 0).morph 2 1) 1).length = 1 := by
  constructor <;>
    norm_num [activeTweens, MorphSys.morph, demoParticles, tweenAlive,
      List.filter]

/-- C6, amended: a second morph issued before the first transition
completes immediately overwrites the saved index with j and restarts the
observed progress at 0, but the prior tween is not killed: both tweens
remain in flight (two active transitions until the first one ends); the
newer tween, updated last each tick, is the one driving the observed
progress. -/
theorem c6_amended (s : MorphSys) (j1 j2 : Nat) (t1 t2 : ℚ)
    (h0 : s.tweens = []) (h12 : t1 ≤ t2) (hlt : t2 < t1 + 3) :
    ((s.morph j1 t1).morph j2 t2).index = j2 ∧
    uProgressAt ((s.morph j1 t1).morph j2 t2) t2 = 0 ∧
    (activeTweens ((s.morph j1 t1).morph j2 t2) t2).length = 2 := by
  refine ⟨rfl, ?_, ?_⟩
  · rw [uProgressAt_after_morph _ j2 t2 t2 le_rfl, tweenValue_start]
  · rw [activeTweens, MorphSys.morph, MorphSys.morph]
    dsimp only
    rw [h0]
    simp [tweenAlive, h12, hlt, show t2 < t2 + 3 by linarith]

/-- C6, witness for the amended theorem: morph(2) at time 0 then morph(2)
at time 1 on an idle 4-variant state. -/
theorem c6_amended_witness :
    ((demoParticles.morph 2 0).morph 2 1).index = 2 ∧
    uProgressAt ((demoParticles.morph 2 0).morph 2 1) 1 = 0 ∧
    (activeTweens ((demoParticles.morph 2 0).morph 2 1) 1).length = 2 :=
  c6_amended demoParticles 2 2 0 1 rfl (by norm_num) (by norm_num)

/- ------------------------------------------------------------------ -/
/- C8: progress within one transition.                                -/
/- ------------------------------------------------------------------ -/

/-- C8: within the single transition started by a morph at time t0, the
observed progress is monotonically non-decreasing, equals 0 at t0 and 1 at
t0 + 3 (fixed duration 3), and obeys the linear easing law on the whole
window; it is not reset before a new morph call restarts it. -/
theorem c8_progress (s : MorphSys) (j : Nat) (t0 t1 t2 : ℚ)
    (h01 : t0 ≤ t1) (h13 : t1 ≤ t0 + 3) (h12 : t1 ≤ t2) :
    uProgressAt (s.morph j t0) t1 ≤ uProgressAt (s.morph j t0) t2 ∧
    uProgressAt (s.morph j t0) t0 = 0 ∧
    uProgressAt (s.morph j t0) (t0 + 3) = 1 ∧
    uProgressAt (s.morph j t0) t1 = (t1 - t0) / 3 := by
  have e1 := uProgressAt_after_morph s j t0 t1 h01
  have e2 := uProgressAt_after_morph s j t0 t2 (le_trans h01 h12)
  have e0 := uProgressAt_after_morph s j t0 t0 le_rfl
  have e3 := uProgressAt_after_morph s j t0 (t0 + 3) (by linarith)
  refine ⟨?_, ?_, ?_, ?_⟩
  · rw [e1, e2]; exact tweenValue_mono t0 t1 t2 h12
  · rw [e0]; exact tweenValue_start t0
  · rw [e3]; exact tweenValue_end t0
  · rw [e1]; exact tweenValue_linear t0 t1 h01 h13

/-- C8, witness: the transition started at time 0 on a concrete state,
sampled at times 1 and 2. -/
theorem c8_progress_witness :
    uProgressAt (demoParticles.morph 1 0) 1 ≤
      uProgressAt (demoParticles.morph 1 0) 2 ∧
    uProgressAt (demoParticles.morph 1 0) 0 = 0 ∧
    uProgressAt (demoParticles.morph 1 0) ((0 : ℚ) + 3) = 1 ∧
    uProgressAt (demoParticles.morph 1 0) 1 = ((1 : ℚ) - 0) / 3 :=
  c8_progress demoParticles 1 0 1 2 (by norm_num) (by norm_num)
    (by norm_num)

/- ------------------------------------------------------------------ -/
/- C10: null dereference in the timer callback.                       -/
/- ------------------------------------------------------------------ -/

/-- C10: the interval timer is started synchronously at script load while
particles is still null; a firing before the asset finishes loading reads
particles.index on null and faults, whereas the per-frame render callback
guards the same access with if (particles) and does not fault. -/
theorem c10_timer_null_fault (now : ℚ) :
    timerCallback initialParticles now = Except.error JsFault.nullDeref ∧
    renderTick initialParticles now = Except.ok none :=
  ⟨rfl, rfl⟩

/-- C10, witness at the first firing time, 4 time units after load. -/
theorem c10_timer_null_fault_witness :
    timerCallback initialParticles 4 = Except.error JsFault.nullDeref ∧
    renderTick initialParticles 4 = Except.ok none :=
  c10_timer_null_fault 4

/- ------------------------------------------------------------------ -/
/- C7: auto-advance cycle.                                            -/
/- ------------------------------------------------------------------ -/

/-- C7: the auto-advance timer, firing every 4 time units, performs
morph((currentIndex + 1) % variantCount) at each firing (the source
comparison index >= positions.length - 1 wraps the last index back to 0);
starting from any in-range index, variantCount consecutive firings visit
every variant index exactly once and leave the controller back at the
start index. -/
theorem c7_autoadvance_cycle (s : MorphSys)
    (h : s.index < s.positions.length) :
    (∀ k, (autoAdvance s (k + 1)).index =
        ((autoAdvance s k).index + 1) % s.positions.length) ∧
    (∀ j, j < s.positions.length →
        ∃ k, k < s.positions.length ∧ (autoAdvance s (k + 1)).index = j) ∧
    (∀ k1, k1 < s.positions.length → ∀ k2, k2 < s.positions.length →
        (autoAdvance s (k1 + 1)).index = (autoAdvance s (k2 + 1)).index →
        k1 = k2) ∧
    (autoAdvance s s.positions.length).index = s.index := by
  have hn : 0 < s.positions.length := by omega
  refine ⟨?_, ?_, ?_, ?_⟩
  · intro k
    have hprev : (autoAdvance s k).index < s.positions.length := by
      rw [autoAdvance_index s h]; exact Nat.mod_lt _ hn
    rw [autoAdvance, swapStep, morph_index, autoAdvance_positions,
      swapTarget_eq_mod _ _ hprev]
  · intro j hj
    refine ⟨(j + s.positions.length - (s.index + 1) % s.positions.length) %
      s.positions.length, Nat.mod_lt _ hn, ?_⟩
    rw [autoAdvance_index s h]
    have hmlt : (s.index + 1) % s.positions.length < s.positions.length :=
      Nat.mod_lt _ hn
    have key : s.index +
        ((j + s.positions.length - (s.index + 1) % s.positions.length) %
          s.positions.length + 1) ≡ j [MOD s.positions.length] := by
      calc s.index +
            ((j + s.positions.length - (s.index + 1) % s.positions.length) %
              s.positions.length + 1)
          = (s.index + 1) +
            (j + s.positions.length - (s.index + 1) % s.positions.length) %
              s.positions.length := by omega
        _ ≡ (s.index + 1) % s.positions.length +
            (j + s.positions.length - (s.index + 1) % s.positions.length) %
              s.positions.length [MOD s.positions.length] :=
            Nat.ModEq.add_right _ (Nat.mod_modEq _ _).symm
        _ ≡ (s.index + 1) % s.positions.length +
            (j + s.positions.length - (s.index + 1) % s.positions.length)
              [MOD s.positions.length] :=
            Nat.ModEq.add_left _ (Nat.mod_modEq _ _)
        _ = j + s.positions.length := by omega
        _ ≡ j [MOD s.positions.length] := Nat.add_mod_right j _
    have keyeq : (s.index +
        ((j + s.positions.length - (s.index + 1) % s.positions.length) %
          s.positions.length + 1)) % s.positions.length =
        j % s.positions.length := key
    rw [keyeq, Nat.mod_eq_of_lt hj]
  · intro k1 hk1 k2 hk2 heq
    rw [autoAdvance_index s h, autoAdvance_index s h] at heq
    have h1 : (s.index + 1) + k1 ≡ (s.index + 1) + k2
        [MOD s.positions.length] := by
      rw [show (s.index + 1) + k1 = s.index + (k1 + 1) by omega,
        show (s.index + 1) + k2 = s.index + (k2 + 1) by omega]
      exact heq
    have hmod := Nat.ModEq.add_left_cancel' (s.index + 1) h1
    have hmodeq : k1 % s.positions.length = k2 % s.positions.length := hmod
    rwa [Nat.mod_eq_of_lt hk1, Nat.mod_eq_of_lt hk2] at hmodeq
  · rw [autoAdvance_index s h, Nat.add_mod_right, Nat.mod_eq_of_lt h]

/-- C7, witness: on the 4-variant demo state starting at index 0, four
firings of the auto-advance timer return to index 0. -/
theorem c7_autoadvance_cycle_witness :
    (autoAdvance demoParticles 4).index = 0 :=
  (c7_autoadvance_cycle demoParticles (by decide)).2.2.2

/- ------------------------------------------------------------------ -/
/- C1: number and length of normalized variants.                      -/
/- ------------------------------------------------------------------ -/

/-- C1, evaluation at the failing input: with native point counts [1, 3]
(float arrays of lengths 3 and 9, maxCount 3), the skip test
originalArray.length === particles.maxCount fires for the 1-point variant
(its float-array length 3 equals maxCount 3) and continue pushes nothing,
so 2 input variants normalize to 1 output variant instead of 2. -/
theorem c1_normalization_drop :
    normalizePositions 0 (fun _ _ => 0)
      [[1, 2, 3], [4, 4, 4, 5, 5, 5, 6, 6, 6]] =
      [[4, 4, 4, 5, 5, 5, 6, 6, 6]] ∧
    (normalizePositions 0 (fun _ _ => 0)
      [[1, 2, 3], [4, 4, 4, 5, 5, 5, 6, 6, 6]]).length ≠ 2 :=
  ⟨rfl, by decide⟩

/- ------------------------------------------------------------------ -/
/- C2: pass-through of variants already at maxCount.                  -/
/- ------------------------------------------------------------------ -/

/-- C2, counterexample: a zero-point variant alone has native count
0 = maxCount, yet the loop skips it (its array length 0 equals maxCount 0)
and pushes nothing, so no output variant exists, let alone an unchanged
one. -/
theorem c2_counterexample :
    variantCount ([] : List ℚ) = maxCountOf [([] : List ℚ)] ∧
    ¬ ∃ w, normalizeVariant (maxCountOf [([] : List ℚ)]) 0 (fun _ => 0) [] =
      some w := by
  refine ⟨rfl, ?_⟩
  rintro ⟨w, hw⟩
  rw [show normalizeVariant (maxCountOf [([] : List ℚ)]) 0 (fun _ => 0) [] =
    none from rfl] at hw
  exact Option.noConfusion hw

/-- C2, amended: a well-formed variant (3 floats per point, per the data
model) whose native count equals maxCount > 0 is not skipped — the skip
test compares the float-array length 3 * maxCount with maxCount and cannot
fire — and is instead rebuilt element by element into a new array whose
contents equal the original (content equality holds; the variant is copied,
not passed through, and a lone zero-point variant is dropped instead). -/
theorem c2_amended (mc : Nat) (nan : ℚ) (rand : Nat → Nat) (orig : List ℚ)
    (h3 : orig.length = variantCount orig * 3)
    (hcm : variantCount orig = mc) (hpos : 0 < mc) :
    normalizeVariant mc nan rand orig = some orig := by
  have hlen : orig.length = mc * 3 := by rw [h3, hcm]
  have hne : orig.length ≠ mc := by omega
  rw [normalizeVariant, if_neg hne,
    buildPadded_copy orig nan rand mc (by omega), ← hlen, List.take_length]

/-- C2, witness for the amended theorem: a single 1-point variant at
maxCount 1 comes back with equal contents. -/
theorem c2_amended_witness :
    normalizeVariant 1 0 (fun _ => 0) [5, 6, 7] = some [5, 6, 7] :=
  c2_amended 1 0 (fun _ => 0) [5, 6, 7] (by decide) (by decide) (by decide)

/- ------------------------------------------------------------------ -/
/- C3: padding fidelity for short variants.                           -/
/- ------------------------------------------------------------------ -/

/-- C3, counterexample, two parts.  First: a 1-point variant among
[1-point, 3-point] inputs has native count 1 < maxCount 3, yet its
float-array length 3 equals maxCount 3, so the loop skips it and there is
no normalized variant at all.  Second: a 0-point variant below a 1-point
variant is padded, but its padded point is read out of bounds of the empty
original (NaN), so no original index in the empty range [0, 0) can supply
it. -/
theorem c3_counterexample :
    (variantCount [(1 : ℚ), 2, 3] <
        maxCountOf [[(1 : ℚ), 2, 3], [4, 4, 4, 5, 5, 5, 6, 6, 6]] ∧
      ¬ ∃ w, normalizeVariant
          (maxCountOf [[(1 : ℚ), 2, 3], [4, 4, 4, 5, 5, 5, 6, 6, 6]]) 0
          (fun _ => 0) [1, 2, 3] = some w) ∧
    (variantCount ([] : List ℚ) <
        maxCountOf [([] : List ℚ), [(7 : ℚ), 8, 9]] ∧
      ¬ ∃ r, r < variantCount ([] : List ℚ) ∧
        pointOf 0 (buildPadded [] 0 (fun _ => 0)
          (maxCountOf [([] : List ℚ), [(7 : ℚ), 8, 9]])) 0 =
          pointOf 0 [] r) := by
  refine ⟨⟨by decide, ?_⟩, ⟨by decide, ?_⟩⟩
  · rintro ⟨w, hw⟩
    rw [show normalizeVariant
        (maxCountOf [[(1 : ℚ), 2, 3], [4, 4, 4, 5, 5, 5, 6, 6, 6]]) 0
        (fun _ => 0) [1, 2, 3] = none from rfl] at hw
    exact Option.noConfusion hw
  · rintro ⟨r, hr, -⟩
    rw [show variantCount ([] : List ℚ) = 0 from rfl] at hr
    exact absurd hr (Nat.not_lt_zero r)

/-- C3, amended: for a well-formed variant that the loop does not skip
(float-array length different from maxCount) and with at least one point
(so the sampled indices floor(count * random()) lie in [0, count)), the
normalized variant starts with the original points verbatim in order, and
each padded slot equals the original point at index rand i, an index in
[0, count) of the same variant. -/
theorem c3_amended (mc : Nat) (nan : ℚ) (rand : Nat → Nat) (orig : List ℚ)
    (h3 : orig.length = variantCount orig * 3)
    (hc : variantCount orig < mc)
    (hne : orig.length ≠ mc)
    (hr : ∀ i, rand i < variantCount orig) :
    ∃ w, normalizeVariant mc nan rand orig = some w ∧
      w.take orig.length = orig ∧
      ∀ i, variantCount orig ≤ i → i < mc →
        ∃ r, r < variantCount orig ∧ pointOf nan w i = pointOf nan orig r := by
  refine ⟨buildPadded orig nan rand mc, ?_, ?_, ?_⟩
  · rw [normalizeVariant, if_neg hne]
  · exact buildPadded_take_copy orig nan rand mc (by omega)
  · intro i hge hlt
    refine ⟨rand i, hr i, ?_⟩
    have hlen_le : orig.length ≤ i * 3 := by
      have : variantCount orig * 3 ≤ i * 3 := by omega
      omega
    have e0 := buildPadded_pad_getD orig nan rand mc i 0 hlt (by omega)
      hlen_le
    have e1 := buildPadded_pad_getD orig nan rand mc i 1 hlt (by omega)
      hlen_le
    have e2 := buildPadded_pad_getD orig nan rand mc i 2 hlt (by omega)
      hlen_le
    simp only [Nat.add_zero] at e0
    rw [pointOf, pointOf, e0, e1, e2]

/-- C3, witness for the amended theorem: a 1-point variant padded to
maxCount 2 with the sampling oracle returning index 0. -/
theorem c3_amended_witness :
    ∃ w, normalizeVariant 2 0 (fun _ => 0) [5, 6, 7] = some w ∧
      w.take ([(5 : ℚ), 6, 7] : List ℚ).length = [5, 6, 7] ∧
      ∀ i, variantCount [(5 : ℚ), 6, 7] ≤ i → i < 2 →
        ∃ r, r < variantCount [(5 : ℚ), 6, 7] ∧
          pointOf 0 w i = pointOf 0 [5, 6, 7] r :=
  c3_amended 2 0 (fun _ => 0) [5, 6, 7] (by decide) (by decide) (by decide)
    (fun _ => Nat.one_pos)

/- ------------------------------------------------------------------ -/
/- C4: missing zero-geometry failure.                                 -/
/- ------------------------------------------------------------------ -/

/-- C4, counterexample: a single zero-point variant satisfies the spec
condition for NoGeometryError, yet the normalization loop performs no such
check and returns normally — here with an empty positions list, since the
zero-length array equals maxCount 0 and is skipped — and construction
proceeds. -/
theorem c4_counterexample :
    hasNoGeometry [([] : List ℚ)] ∧
    normalizePositions 0 (fun _ _ => 0) [([] : List ℚ)] = [] := by
  refine ⟨?_, rfl⟩
  right
  exact ⟨[], by simp, rfl⟩

theorem foldl_max_all_empty (vs : List (List ℚ)) (h : ∀ v ∈ vs, v = []) :
    ∀ a, List.foldl (fun m v => max m (variantCount v)) a vs = a := by
  induction vs with
  | nil => intro a; rfl
  | cons v rest ih =>
    intro a
    have hv : v = [] := h v (by simp)
    have hrest : ∀ w ∈ rest, w = [] := fun w hw => h w (by simp [hw])
    rw [List.foldl_cons, hv]
    have hmax : max a (variantCount ([] : List ℚ)) = a := by
      rw [show variantCount ([] : List ℚ) = 0 from rfl, Nat.max_zero]
    rw [hmax]
    exact ih hrest a

theorem normalizeFrom_all_empty (nan : ℚ) (rand : Nat → Nat → Nat)
    (vs : List (List ℚ)) (h : ∀ v ∈ vs, v = []) :
    ∀ k, normalizeFrom nan rand 0 k vs = [] := by
  induction vs with
  | nil => intro k; rfl
  | cons v rest ih =>
    intro k
    have hv : v = [] := h v (by simp)
    have hrest : ∀ w ∈ rest, w = [] := fun w hw => h w (by simp [hw])
    rw [normalizeFrom, hv]
    simp only [normalizeVariant, List.length_nil, if_pos rfl]
    exact ih hrest (k + 1)

/-- C4, amended: the loop performs no zero-variant or zero-point check and
never fails; in particular, when every input variant has zero points (which
includes the empty input set) it returns normally with an empty positions
list — every such variant is silently dropped — and the caller proceeds to
build the Particle Set. -/
theorem c4_amended (nan : ℚ) (rand : Nat → Nat → Nat) (vs : List (List ℚ))
    (h : ∀ v ∈ vs, v = []) : normalizePositions nan rand vs = [] := by
  have hmc : maxCountOf vs = 0 := foldl_max_all_empty vs h 0
  rw [normalizePositions, hmc]
  exact normalizeFrom_all_empty nan rand vs h 0

/-- C4, witness for the amended theorem: two zero-point variants normalize
to an empty positions list with no error. -/
theorem c4_amended_witness :
    normalizePositions 0 (fun _ _ => 0) [([] : List ℚ), []] = [] :=
  c4_amended 0 (fun _ _ => 0) [[], []] (by
    intro v hv
    simp only [List.mem_cons, List.not_mem_nil, or_false] at hv
    rcases hv with h1 | h1 <;> exact h1)

/- ------------------------------------------------------------------ -/
/- C9: fragment alpha boundary values.                                -/
/- ------------------------------------------------------------------ -/

/-- C9: the fragment-stage alpha is alpha(d) = 0.05 / d - 0.1, so
alpha(0.5) = 0 (the sprite edge is fully transparent) and
alpha(0.25) = 0.1. -/
theorem c9_alpha_boundary :
    fragmentAlpha (1 / 2) = 0 ∧ fragmentAlpha (1 / 4) = 1 / 10 := by
  constructor <;> norm_num [fragmentAlpha]

end ParticlesMorphing
